import Mathlib

set_option maxHeartbeats 1000000

/-!
Verification of the client-side list-state synchronization model of a todo
application.  The record type and the three mutation operations (`toggleTodo`,
`deleteTodo`, `addTodo`) are shallow embeddings of the handlers defined in
`src/App.tsx` (the Vue variant in `src/App.vue` has identical semantics).  The
form-level guard comes from `src/components/TodoForm.tsx`.  The persistence
layer (`loadTodos`) embeds the validating localStorage loader given in the
repository's pattern guide (section 11, "Data Validation").
-/

/-- One todo record, as in `src/types` (fields `userId`, `id`, `title`,
`completed`, observed in the seed data and in `addTodo`). -/
structure Todo where
  userId : Int
  id : Int
  title : String
  completed : Bool
deriving DecidableEq, Repr

/-- Embedding of `toggleTodo` (`src/App.tsx` lines 28-34):
`todos.map((t) => t.id === id ? { ...t, completed: !t.completed } : t)`. -/
def toggleTodo (i : Int) (todos : List Todo) : List Todo :=
  todos.map fun t => if t.id = i then { t with completed := !t.completed } else t

/-- Embedding of `deleteTodo` (`src/App.tsx` lines 36-38):
`todos.filter((t) => t.id !== id)`. -/
def deleteTodo (i : Int) (todos : List Todo) : List Todo :=
  todos.filter fun t => t.id ≠ i

/-- Embedding of `addTodo` (`src/App.tsx` lines 40-49).  The new id is
`length ? (todos[length - 1]?.id ?? 0) + 1 : 1`: one plus the id of the LAST
element when the list is non-empty (the optional access `todos[length-1]?.id`
defaulting to `0` via `?? 0`), and `1` for an empty list.  The new record is
appended with `userId = 1` and `completed = false`. -/
def addTodo (title : String) (todos : List Todo) : List Todo :=
  let newTodo : Todo :=
    { userId := 1
      id := if todos.length ≠ 0
              then (((todos.get? (todos.length - 1)).map Todo.id).getD 0) + 1
              else 1
      title := title
      completed := false }
  todos ++ [newTodo]

/-- Model of the JavaScript `String.prototype.trim` builtin used by
`TodoForm.tsx`: drop leading and trailing whitespace characters. -/
def jsTrim (s : String) : String :=
  String.mk (((s.data.dropWhile Char.isWhitespace).reverse.dropWhile
    Char.isWhitespace).reverse)

/-- Embedding of the form-submit path of `src/components/TodoForm.tsx`
(lines 5-18) composed with `addTodo`: the form action reads the title and does
`if (!title.trim()) return; onAddTodo(title);` — a title whose trimmed form is
empty is rejected before `addTodo` runs, and the (untrimmed) title is passed
through otherwise. -/
def submitTodoForm (title : String) (todos : List Todo) : List Todo :=
  if jsTrim title = "" then todos else addTodo title todos

/-- The component state of `App` (`src/App.tsx` lines 8-9): the record list
and the loading flag. -/
structure AppState where
  todos : List Todo
  loading : Bool
deriving DecidableEq, Repr

/-- Initial state: `useState<Todo[]>([])` and `useState(true)`. -/
def initialAppState : AppState :=
  { todos := [], loading := true }

/-- Outcome of the external seed fetch: either a decoded record list or a
thrown network/decode error. -/
inductive FetchOutcome where
  | success (data : List Todo)
  | failure

/-- Embedding of the `fetchTodos` effect (`src/App.tsx` lines 11-26):
`try { setTodos(data) } catch { log } finally { setLoading(false) }` — on
success the list is replaced, on failure the error is only logged, and in
either case the loading flag is cleared. -/
def runFetchTodos (s : AppState) : FetchOutcome → AppState
  | .success data => { s with todos := data, loading := false }
  | .failure => { s with loading := false }

/-- A parsed JSON value, the result type of the external `JSON.parse`
builtin.  JSON numbers are modelled exactly as rationals (JSON decimal
literals are rationals; no float rounding is relevant to the loader's
`typeof` checks). -/
inductive JVal where
  | jnull
  | jbool (b : Bool)
  | jnum (q : Rat)
  | jstr (s : String)
  | jarr (elems : List JVal)
  | jobj (fields : List (String × JVal))

/-- JavaScript property access `v[key]` on a parsed-JSON value: only objects
carry these properties; on any other value the access yields `undefined`
(`none`). -/
def jlookup (v : JVal) (key : String) : Option JVal :=
  match v with
  | .jobj fields => (fields.find? fun f => f.1 = key).map fun f => f.2
  | _ => none

/-- JavaScript truthiness of a parsed-JSON value (`null`, `false`, `0` and
`""` are falsy; objects and arrays are truthy). -/
def truthy : JVal → Bool
  | .jnull => false
  | .jbool b => b
  | .jnum q => decide (q ≠ 0)
  | .jstr s => decide (s ≠ "")
  | .jarr _ => true
  | .jobj _ => true

/-- The element-wise validation predicate of the loader (pattern guide,
section 11 "Data Validation"):
`todo && typeof todo.id === 'number' && typeof todo.title === 'string' &&
typeof todo.completed === 'boolean'`. -/
def isValidRecord (v : JVal) : Bool :=
  truthy v &&
  (match jlookup v "id" with | some (.jnum _) => true | _ => false) &&
  (match jlookup v "title" with | some (.jstr _) => true | _ => false) &&
  (match jlookup v "completed" with | some (.jbool _) => true | _ => false)

/-- Outcome of the external `JSON.parse` builtin on a stored string: it either
throws (the string is not valid JSON, e.g. the literal text `not json`) or
returns a parsed value. -/
inductive ParseResult where
  | thrown
  | ok (v : JVal)

/-- Embedding of the validating `loadTodos` (pattern guide, section 11,
"Data Validation" block):
`const stored = localStorage.getItem(KEY); if (!stored) return [];` — the
guard also fires on the empty string, which is falsy — then
`try { const parsed = JSON.parse(stored); if (!Array.isArray(parsed)) return
[]; return parsed.filter(validRecord); } catch { return []; }`.
The `JSON.parse` builtin is passed in as the external parse function. -/
def loadTodos (stored : Option String) (parse : String → ParseResult) :
    List JVal :=
  match stored with
  | none => []
  | some s =>
    if s = "" then []
    else
      match parse s with
      | .thrown => []
      | .ok parsed =>
        match parsed with
        | .jarr elems => elems.filter isValidRecord
        | _ => []

/-- Id-assignment rule written exactly as the specification words it: the new
id is `1 + max(existing ids, default 0)`.  This definition follows the SPEC,
not the source; it exists to be compared against `addTodo`. -/
def specMaxIdPlusOne (todos : List Todo) : Int :=
  1 + (todos.map Todo.id).foldr max 0

/-- The first stored element of the spec's partial-recovery scenario: the
parsed form of the object with id 1, title A, completed true. -/
def goodRecord : JVal :=
  .jobj [("id", .jnum 1), ("title", .jstr "A"), ("completed", .jbool true)]

/-- The second stored element of the spec's partial-recovery scenario: an
object whose only field is the string-valued id `bad`. -/
def badRecord : JVal :=
  .jobj [("id", .jstr "bad")]

/-- A stored element carrying the NON-integer numeric id `3/2` together with
a valid title and completed flag. -/
def halfIdRecord : JVal :=
  .jobj [("id", .jnum ((3 : Rat) / 2)), ("title", .jstr "A"),
         ("completed", .jbool true)]

lemma toggle_cons (i : Int) (x : Todo) (xs : List Todo) :
    toggleTodo i (x :: xs)
      = (if x.id = i then { x with completed := !x.completed } else x)
          :: toggleTodo i xs := rfl

lemma toggleTodo_map_id (i : Int) (L : List Todo) :
    (toggleTodo i L).map Todo.id = L.map Todo.id := by
  unfold toggleTodo
  rw [List.map_map]
  have hfun : (Todo.id ∘ fun t =>
      if t.id = i then { t with completed := !t.completed } else t) = Todo.id := by
    funext t
    by_cases h : t.id = i <;> simp [Function.comp, h]
  rw [hfun]

lemma toggleTodo_of_not_mem (i : Int) (L : List Todo)
    (h : ∀ r ∈ L, r.id ≠ i) : toggleTodo i L = L := by
  induction L with
  | nil => rfl
  | cons x xs ih =>
    have hx : x.id ≠ i := h x (List.mem_cons_self x xs)
    have hxs : ∀ r ∈ xs, r.id ≠ i := fun r hr => h r (List.mem_cons_of_mem x hr)
    rw [toggle_cons, if_neg hx, ih hxs]

lemma deleteTodo_of_not_mem (i : Int) (L : List Todo)
    (h : ∀ r ∈ L, r.id ≠ i) : deleteTodo i L = L :=
  List.filter_eq_self.mpr fun r hr => decide_eq_true (h r hr)

lemma addTodo_eq (title : String) (L : List Todo) :
    addTodo title L
      = L ++ [{ userId := 1, id := ((L.getLast?.map Todo.id).getD 0) + 1,
                title := title, completed := false }] := by
  cases L with
  | nil => rfl
  | cons x xs => simp [addTodo, List.getLast?_eq_getElem?]

/-- C1: the claim states the new id is `1 + max(existing ids, default 0)` for
every list.  The code instead uses the id of the LAST record plus one; on a
list whose last record does not carry the maximal id the two rules differ:
for `[{id:3},{id:1}]` the code assigns the new record id `2`, while
`1 + max` would assign `4`. -/
theorem c1_counterexample_last_not_max :
    (addTodo "X" [⟨1, 3, "a", false⟩, ⟨1, 1, "b", false⟩]).map Todo.id
      = [3, 1, 2] ∧
    specMaxIdPlusOne [⟨1, 3, "a", false⟩, ⟨1, 1, "b", false⟩] = 4 ∧
    (2 : Int) ≠ 4 := by decide

/-- C1 (amended): for every RecordList and title, `add` appends a record with
`completed = false`, `userId = 1`, and id equal to one plus the id of the
last record of the list (one for an empty list) — not `1 + max(existing
ids)`; in particular, starting from `[{id:1},{id:3}]`, deleting id 3 and then
adding still gives the new record id 2. -/
theorem c1_addTodo_id_rule (todos : List Todo) (title : String) :
    addTodo title todos
      = todos ++ [{ userId := 1,
                    id := ((todos.getLast?.map Todo.id).getD 0) + 1,
                    title := title, completed := false }] ∧
    (addTodo "X" (deleteTodo 3 [⟨1, 1, "buy", false⟩, ⟨1, 3, "read", true⟩])).map
        Todo.id = [1, 2] :=
  ⟨addTodo_eq title todos, by decide⟩

/-- C2: the claim states that `add` preserves id-uniqueness on every list
with unique ids.  Counterexample: `[{id:2},{id:1}]` has unique ids, yet
`add` assigns the new record id `2` (last id `1` plus one), so the result
`[2, 1, 2]` has a duplicate id. -/
theorem c2_counterexample_add_duplicates_id :
    (([⟨1, 2, "a", false⟩, ⟨1, 1, "b", false⟩] : List Todo).map Todo.id).Nodup ∧
    ¬ ((addTodo "X" [⟨1, 2, "a", false⟩, ⟨1, 1, "b", false⟩]).map Todo.id).Nodup := by
  decide

/-- C2 (amended): on every RecordList with unique ids, `toggle` and `delete`
preserve id-uniqueness for any id, and `add` preserves it provided every
existing id is at most the last record's id (in particular on lists whose
ids appear in increasing order); without that proviso `add` can duplicate an
id. -/
theorem c2_ops_preserve_unique_ids (L : List Todo) (i : Int) (t : String)
    (h : (L.map Todo.id).Nodup) :
    ((toggleTodo i L).map Todo.id).Nodup ∧
    ((deleteTodo i L).map Todo.id).Nodup ∧
    ((∀ r ∈ L, r.id ≤ (L.getLast?.map Todo.id).getD 0) →
      ((addTodo t L).map Todo.id).Nodup) := by
  refine ⟨?_, ?_, ?_⟩
  · rw [toggleTodo_map_id]; exact h
  · exact ((List.filter_sublist L).map Todo.id).nodup h
  · intro hle
    rw [addTodo_eq, List.map_append]
    refine List.Nodup.append h (List.nodup_singleton _) ?_
    intro a ha hb
    rcases List.mem_map.mp ha with ⟨r, hr, rfl⟩
    have h1 := hle r hr
    have h2 : r.id = ((L.getLast?.map Todo.id).getD 0) + 1 := by
      simpa using hb
    omega

theorem c2_ops_preserve_unique_ids_witness :
    ((toggleTodo 1 [⟨1, 1, "a", false⟩, ⟨1, 2, "b", true⟩]).map Todo.id).Nodup ∧
    ((deleteTodo 1 [⟨1, 1, "a", false⟩, ⟨1, 2, "b", true⟩]).map Todo.id).Nodup ∧
    ((addTodo "X" [⟨1, 1, "a", false⟩, ⟨1, 2, "b", true⟩]).map Todo.id).Nodup :=
  ⟨(c2_ops_preserve_unique_ids [⟨1, 1, "a", false⟩, ⟨1, 2, "b", true⟩] 1 "X"
      (by decide)).1,
   (c2_ops_preserve_unique_ids [⟨1, 1, "a", false⟩, ⟨1, 2, "b", true⟩] 1 "X"
      (by decide)).2.1,
   (c2_ops_preserve_unique_ids [⟨1, 1, "a", false⟩, ⟨1, 2, "b", true⟩] 1 "X"
      (by decide)).2.2 (by decide)⟩

/-- C3: for every list and every title whose trimmed form is empty (the empty
string and whitespace-only strings alike), the form-level add path returns
the list unchanged — the record is not stored and no error is raised. -/
theorem c3_blank_title_rejected (L : List Todo) (title : String)
    (h : jsTrim title = "") : submitTodoForm title L = L := by
  simp [submitTodoForm, h]

theorem c3_blank_title_rejected_witness :
    jsTrim "   " = "" ∧ jsTrim "" = "" ∧
    submitTodoForm "   " [⟨1, 1, "a", false⟩] = [⟨1, 1, "a", false⟩] ∧
    submitTodoForm "" [⟨1, 1, "a", false⟩] = [⟨1, 1, "a", false⟩] :=
  ⟨by decide, by decide,
   c3_blank_title_rejected [⟨1, 1, "a", false⟩] "   " (by decide),
   c3_blank_title_rejected [⟨1, 1, "a", false⟩] "" (by decide)⟩

/-- C6: when the seed fetch fails starting from the initial state (empty
list, no persisted data), the resulting list state is the empty list and the
loading flag becomes false; `runFetchTodos` is total, so the failure never
propagates to the caller. -/
theorem c6_fetch_failure_resolves_empty :
    runFetchTodos initialAppState .failure
      = { todos := [], loading := false } := rfl

/-- C7: applying `toggle` twice with the same id returns the original list:
`toggle(toggle(L, i), i) = L` for every list and id. -/
theorem c7_double_toggle_identity (L : List Todo) (i : Int) :
    toggleTodo i (toggleTodo i L) = L := by
  unfold toggleTodo
  rw [List.map_map]
  apply List.map_id''
  intro t
  cases t with
  | mk u j ti c => by_cases h : j = i <;> simp [Function.comp, h]

/-- C8: for every list and every id not present in it, `toggle` and `delete`
both return the list unchanged — a missing id is a no-op, not an error. -/
theorem c8_missing_id_noop (L : List Todo) (i : Int)
    (h : ∀ r ∈ L, r.id ≠ i) :
    toggleTodo i L = L ∧ deleteTodo i L = L :=
  ⟨toggleTodo_of_not_mem i L h, deleteTodo_of_not_mem i L h⟩

theorem c8_missing_id_noop_witness :
    toggleTodo 2 [⟨1, 1, "a", false⟩] = [⟨1, 1, "a", false⟩] ∧
    deleteTodo 2 [⟨1, 1, "a", false⟩] = [⟨1, 1, "a", false⟩] :=
  c8_missing_id_noop [⟨1, 1, "a", false⟩] 2 (by decide)

lemma match_jnum_iff (o : Option JVal) :
    (match o with | some (.jnum _) => true | _ => false) = true
      ↔ ∃ q, o = some (.jnum q) := by
  cases o with
  | none => simp
  | some v => cases v <;> simp

lemma match_jstr_iff (o : Option JVal) :
    (match o with | some (.jstr _) => true | _ => false) = true
      ↔ ∃ s, o = some (.jstr s) := by
  cases o with
  | none => simp
  | some v => cases v <;> simp

lemma match_jbool_iff (o : Option JVal) :
    (match o with | some (.jbool _) => true | _ => false) = true
      ↔ ∃ b, o = some (.jbool b) := by
  cases o with
  | none => simp
  | some v => cases v <;> simp

lemma isValidRecord_iff (v : JVal) :
    isValidRecord v = true ↔
      truthy v = true ∧ (∃ q, jlookup v "id" = some (.jnum q)) ∧
      (∃ s, jlookup v "title" = some (.jstr s)) ∧
      (∃ b, jlookup v "completed" = some (.jbool b)) := by
  unfold isValidRecord
  rw [Bool.and_eq_true, Bool.and_eq_true, Bool.and_eq_true,
      match_jnum_iff, match_jstr_iff, match_jbool_iff, and_assoc, and_assoc]

/-- C4: whenever the stored slot content is not parseable as the expected
shape — `JSON.parse` throws on it (for example on the literal text
`not json`), or it parses to a non-array value — `load` returns the empty
list; `loadTodos` is a total function, so the parse failure never propagates
to the caller. -/
theorem c4_load_unparseable_empty (parse : String → ParseResult) (s : String)
    (h : parse s = .thrown ∨
         ∃ v, parse s = .ok v ∧ ∀ elems, v ≠ .jarr elems) :
    loadTodos (some s) parse = [] := by
  simp only [loadTodos]
  by_cases hs : s = ""
  · rw [if_pos hs]
  · rw [if_neg hs]
    rcases h with h | ⟨v, hv, hvna⟩
    · rw [h]
    · rw [hv]
      cases v with
      | jarr elems => exact absurd rfl (hvna elems)
      | jnull => rfl
      | jbool b => rfl
      | jnum q => rfl
      | jstr t => rfl
      | jobj fields => rfl

theorem c4_load_unparseable_empty_witness :
    loadTodos (some "not json") (fun _ => ParseResult.thrown) = [] :=
  c4_load_unparseable_empty (fun _ => ParseResult.thrown) "not json" (Or.inl rfl)

/-- C5: the claim requires an accepted element to carry an INTEGER id, but
the loader only checks `typeof todo.id === 'number'`: an element whose id is
the non-integer number `3/2` is accepted and kept, although its id equals no
integer. -/
theorem c5_counterexample_noninteger_id_accepted :
    loadTodos (some "persisted") (fun _ => ParseResult.ok (.jarr [halfIdRecord]))
      = [halfIdRecord] ∧
    jlookup halfIdRecord "id" = some (.jnum ((3 : Rat) / 2)) ∧
    ∀ n : Int, ((3 : Rat) / 2) ≠ (n : Rat) := by
  refine ⟨rfl, rfl, ?_⟩
  intro n h
  rw [div_eq_iff (by norm_num : (2 : Rat) ≠ 0)] at h
  have h3 : (3 : Int) = n * 2 := by exact_mod_cast h
  omega

/-- C5 (amended): on load, each stored element of a parsed array is validated
individually and kept exactly when it is truthy and has a NUMERIC id (any
JSON number, not necessarily an integer), a string title and a boolean
completed; only the invalid elements are dropped, and the kept elements stay
in order.  For the stored value with elements id 1 / title A /
completed true and string-id bad, load returns only the first record. -/
theorem c5_load_elementwise_validation (parse : String → ParseResult)
    (s : String) (elems : List JVal) (hs : s ≠ "")
    (hp : parse s = .ok (.jarr elems)) :
    (loadTodos (some s) parse).Sublist elems ∧
    (∀ v, v ∈ loadTodos (some s) parse ↔
      v ∈ elems ∧ truthy v = true ∧
      (∃ q, jlookup v "id" = some (.jnum q)) ∧
      (∃ str, jlookup v "title" = some (.jstr str)) ∧
      (∃ b, jlookup v "completed" = some (.jbool b))) ∧
    loadTodos (some "persisted")
        (fun _ => ParseResult.ok (.jarr [goodRecord, badRecord]))
      = [goodRecord] := by
  have hload : loadTodos (some s) parse = elems.filter isValidRecord := by
    simp only [loadTodos]
    rw [if_neg hs, hp]
  refine ⟨?_, ?_, rfl⟩
  · rw [hload]
    exact List.filter_sublist elems
  · intro v
    rw [hload, List.mem_filter, isValidRecord_iff]

theorem c5_load_elementwise_validation_witness :
    (loadTodos (some "persisted")
        (fun _ => ParseResult.ok (.jarr [goodRecord, badRecord]))).Sublist
      [goodRecord, badRecord] ∧
    (∀ v, v ∈ loadTodos (some "persisted")
        (fun _ => ParseResult.ok (.jarr [goodRecord, badRecord])) ↔
      v ∈ [goodRecord, badRecord] ∧ truthy v = true ∧
      (∃ q, jlookup v "id" = some (.jnum q)) ∧
      (∃ str, jlookup v "title" = some (.jstr str)) ∧
      (∃ b, jlookup v "completed" = some (.jbool b))) ∧
    loadTodos (some "persisted")
        (fun _ => ParseResult.ok (.jarr [goodRecord, badRecord]))
      = [goodRecord] :=
  c5_load_elementwise_validation
    (fun _ => ParseResult.ok (.jarr [goodRecord, badRecord]))
    "persisted" [goodRecord, badRecord] (by decide) rfl

/-- C9: on a list with unique ids that contains a record with id `i`,
`toggle` rewrites exactly one position: there is an index `j` holding the
record with id `i`, and the toggled list is the original list with position
`j` replaced by the same record with only `completed` flipped — so its id,
title and userId are unchanged, every other record is unchanged, and the
length and order are unchanged. -/
theorem c9_toggle_flips_exactly_one (L : List Todo) (i : Int)
    (hu : (L.map Todo.id).Nodup) (hm : ∃ r ∈ L, r.id = i) :
    ∃ j : Fin L.length, (L.get j).id = i ∧
      toggleTodo i L
        = L.set j { L.get j with completed := !(L.get j).completed } := by
  induction L with
  | nil =>
    rcases hm with ⟨r, hr, _⟩
    exact absurd hr (List.not_mem_nil r)
  | cons x xs ih =>
    rw [List.map_cons] at hu
    have h0 := List.nodup_cons.mp hu
    by_cases hx : x.id = i
    · refine ⟨⟨0, Nat.succ_pos _⟩, hx, ?_⟩
      have hxs : ∀ r ∈ xs, r.id ≠ i := by
        intro r hr hri
        exact h0.1 (hx ▸ hri ▸ List.mem_map_of_mem Todo.id hr)
      rw [toggle_cons, if_pos hx, toggleTodo_of_not_mem i xs hxs]
      rfl
    · rcases hm with ⟨r, hr, hri⟩
      have hr' : r ∈ xs := by
        rcases List.mem_cons.mp hr with h | h
        · exact absurd (h ▸ hri) hx
        · exact h
      obtain ⟨j, hj1, hj2⟩ := ih h0.2 ⟨r, hr', hri⟩
      refine ⟨j.succ, hj1, ?_⟩
      rw [toggle_cons, if_neg hx, hj2]
      rfl

theorem c9_toggle_flips_exactly_one_witness :
    ∃ j : Fin ([⟨1, 1, "a", false⟩, ⟨1, 2, "b", true⟩] : List Todo).length,
      (([⟨1, 1, "a", false⟩, ⟨1, 2, "b", true⟩] : List Todo).get j).id = 2 ∧
      toggleTodo 2 [⟨1, 1, "a", false⟩, ⟨1, 2, "b", true⟩]
        = ([⟨1, 1, "a", false⟩, ⟨1, 2, "b", true⟩] : List Todo).set j
            { ([⟨1, 1, "a", false⟩, ⟨1, 2, "b", true⟩] : List Todo).get j with
              completed :=
                !(([⟨1, 1, "a", false⟩, ⟨1, 2, "b", true⟩] : List Todo).get
                    j).completed } :=
  c9_toggle_flips_exactly_one [⟨1, 1, "a", false⟩, ⟨1, 2, "b", true⟩] 2
    (by decide) (by decide)

/-- C10: `delete` removes every record whose id equals `i` — not only the
first match — and keeps the remaining records in their relative order: the
result is a sublist of the input, contains no record with id `i`, and keeps
every record with a different id with its multiplicity; on the concrete list
with ids `[7, 2, 7]`, deleting id 7 removes both matching records. -/
theorem c10_delete_removes_every_match (L : List Todo) (i : Int) :
    (deleteTodo i L).Sublist L ∧
    (∀ r ∈ deleteTodo i L, r.id ≠ i) ∧
    (∀ r : Todo, r.id ≠ i → (deleteTodo i L).count r = L.count r) ∧
    deleteTodo 7 [⟨1, 7, "a", false⟩, ⟨1, 2, "b", false⟩, ⟨1, 7, "c", true⟩]
      = [⟨1, 2, "b", false⟩] := by
  refine ⟨List.filter_sublist L, ?_, ?_, by decide⟩
  · intro r hr
    simp only [deleteTodo] at hr
    exact of_decide_eq_true (List.mem_filter.mp hr).2
  · intro r hri
    simp only [deleteTodo]
    exact List.count_filter (decide_eq_true hri)
